import Mathlib

/-!
Verification of the cargo-dist distribution builder against its
natural-language specification.

The development shallow-embeds the Rust sources:

* `src/cargo-dist/src/platform/targets.rs` — the target-triple parser
  (`TargetTripleParsed`, `Arch`, `Vendor`, `Os`, `Abi` and their derived
  predicates);
* `src/cargo-dist/src/lib.rs` — the distribution plan (`gather_work`),
  the report assembly in `do_dist`, the archive builders
  (`tar_distributable`) and the scaffolding command (`do_init`);
* `src/cargo-dist/src/build/mod.rs` — the build-output reconciler
  (`BuildExpectations::found_bin`, `BuildExpectations::process_bins`).

Strings stand in for Rust `String` / `Utf8PathBuf`; external collaborators
(the filesystem, the linkage analyzer) are passed in as explicit pure
parameters.  All definitions are computable so that every statement can be
evaluated on concrete inputs.
-/

namespace Targets

/-- Architecture enum from `targets.rs` (`declare_stringish_enum! Arch`):
a closed literal table plus a catch-all `Other` carrying the raw string. -/
inductive Arch where
  | Other (s : String)
  | I686
  | X86_64
  | Aarch64
  | Armv7
  | Arm
  | I586
  | Powerpc
  | Powerpc64
  | Powerpc64le
  | S390x
  | Riscv64gc
  | Loongarch64
  | Sparc64
  | Sparcv9
  | Wasm32
  | Unknown
  deriving DecidableEq, Repr

/-- Vendor enum from `targets.rs` (`declare_stringish_enum! Vendor`). -/
inductive Vendor where
  | Other (s : String)
  | Apple
  | Pc
  | Sun
  | Unknown
  deriving DecidableEq, Repr

/-- Operating-system enum from `targets.rs` (`declare_stringish_enum! Os`). -/
inductive Os where
  | Other (s : String)
  | Linux
  | Windows
  | Darwin
  | Freebsd
  | Netbsd
  | Illumos
  | Ios
  | Watchos
  | Tvos
  | Fuchsia
  | Android
  | Wasi
  | Solaris
  | Unknown
  deriving DecidableEq, Repr

/-- ABI enum from `targets.rs` (`declare_stringish_enum! Abi`). -/
inductive Abi where
  | Other (s : String)
  | Gnu
  | Gnueabi
  | Gnueabihf
  | Musl
  | Musleabi
  | Musleabihf
  | Msvc
  | Android
  | Unknown
  deriving DecidableEq, Repr

/-- String dispatch for `Arch`, as generated by `declare_stringish_enum!`:
each literal of the closed table maps to its variant (`"unknown"` maps to
`Unknown`), anything else to `Other`. -/
def Arch.from_str : String → Arch
  | "i686" => .I686
  | "x86_64" => .X86_64
  | "aarch64" => .Aarch64
  | "armv7" => .Armv7
  | "arm" => .Arm
  | "i586" => .I586
  | "powerpc" => .Powerpc
  | "powerpc64" => .Powerpc64
  | "powerpc64le" => .Powerpc64le
  | "s390x" => .S390x
  | "riscv64gc" => .Riscv64gc
  | "loongarch64" => .Loongarch64
  | "sparc64" => .Sparc64
  | "sparcv9" => .Sparcv9
  | "wasm32" => .Wasm32
  | "unknown" => .Unknown
  | s => .Other s

/-- String dispatch for `Vendor`. -/
def Vendor.from_str : String → Vendor
  | "apple" => .Apple
  | "pc" => .Pc
  | "sun" => .Sun
  | "unknown" => .Unknown
  | s => .Other s

/-- String dispatch for `Os`. -/
def Os.from_str : String → Os
  | "linux" => .Linux
  | "windows" => .Windows
  | "darwin" => .Darwin
  | "freebsd" => .Freebsd
  | "netbsd" => .Netbsd
  | "illumos" => .Illumos
  | "ios" => .Ios
  | "watchos" => .Watchos
  | "tvos" => .Tvos
  | "fuchsia" => .Fuchsia
  | "android" => .Android
  | "wasi" => .Wasi
  | "solaris" => .Solaris
  | "unknown" => .Unknown
  | s => .Other s

/-- String dispatch for `Abi`. -/
def Abi.from_str : String → Abi
  | "gnu" => .Gnu
  | "gnueabi" => .Gnueabi
  | "gnueabihf" => .Gnueabihf
  | "musl" => .Musl
  | "musleabi" => .Musleabi
  | "musleabihf" => .Musleabihf
  | "msvc" => .Msvc
  | "android" => .Android
  | "unknown" => .Unknown
  | s => .Other s

/-- Literal of a table variant of `Arch` (`none` for the `Other` catch-all).
Inverse view of the closed literal table used by `Arch.from_str`. -/
def Arch.literal : Arch → Option String
  | .I686 => some "i686"
  | .X86_64 => some "x86_64"
  | .Aarch64 => some "aarch64"
  | .Armv7 => some "armv7"
  | .Arm => some "arm"
  | .I586 => some "i586"
  | .Powerpc => some "powerpc"
  | .Powerpc64 => some "powerpc64"
  | .Powerpc64le => some "powerpc64le"
  | .S390x => some "s390x"
  | .Riscv64gc => some "riscv64gc"
  | .Loongarch64 => some "loongarch64"
  | .Sparc64 => some "sparc64"
  | .Sparcv9 => some "sparcv9"
  | .Wasm32 => some "wasm32"
  | .Unknown => some "unknown"
  | .Other _ => none

/-- Literal of a table variant of `Vendor`. -/
def Vendor.literal : Vendor → Option String
  | .Apple => some "apple"
  | .Pc => some "pc"
  | .Sun => some "sun"
  | .Unknown => some "unknown"
  | .Other _ => none

/-- Literal of a table variant of `Os`. -/
def Os.literal : Os → Option String
  | .Linux => some "linux"
  | .Windows => some "windows"
  | .Darwin => some "darwin"
  | .Freebsd => some "freebsd"
  | .Netbsd => some "netbsd"
  | .Illumos => some "illumos"
  | .Ios => some "ios"
  | .Watchos => some "watchos"
  | .Tvos => some "tvos"
  | .Fuchsia => some "fuchsia"
  | .Android => some "android"
  | .Wasi => some "wasi"
  | .Solaris => some "solaris"
  | .Unknown => some "unknown"
  | .Other _ => none

/-- Literal of a table variant of `Abi`. -/
def Abi.literal : Abi → Option String
  | .Gnu => some "gnu"
  | .Gnueabi => some "gnueabi"
  | .Gnueabihf => some "gnueabihf"
  | .Musl => some "musl"
  | .Musleabi => some "musleabi"
  | .Musleabihf => some "musleabihf"
  | .Msvc => some "msvc"
  | .Android => some "android"
  | .Unknown => some "unknown"
  | .Other _ => none

/-- Endianness enum from `targets.rs`. -/
inductive Endianness where
  | Little
  | Big
  deriving DecidableEq, Repr

/-- Bit-width of an architecture (`Arch::bit_width` in `targets.rs`). -/
def Arch.bit_width : Arch → Option Nat
  | .I586 => some 32
  | .I686 => some 32
  | .X86_64 => some 64
  | .Aarch64 => some 64
  | .Armv7 => some 32
  | .Arm => some 32
  | .Powerpc => some 32
  | .Powerpc64 => some 64
  | .Powerpc64le => some 64
  | .S390x => some 64
  | .Riscv64gc => some 64
  | .Loongarch64 => some 64
  | .Sparc64 => some 64
  | .Sparcv9 => some 64
  | .Wasm32 => some 32
  | .Unknown => none
  | .Other _ => none

/-- Endianness of an architecture (`Arch::endianness` in `targets.rs`). -/
def Arch.endianness : Arch → Option Endianness
  | .I586 => some .Little
  | .I686 => some .Little
  | .X86_64 => some .Little
  | .Aarch64 => some .Little
  | .Armv7 => some .Little
  | .Arm => some .Little
  | .Powerpc => some .Big
  | .Powerpc64 => some .Big
  | .Powerpc64le => some .Little
  | .S390x => some .Big
  | .Riscv64gc => some .Little
  | .Loongarch64 => some .Little
  | .Sparc64 => some .Big
  | .Sparcv9 => some .Big
  | .Wasm32 => some .Little
  | .Unknown => none
  | .Other _ => none

/-- Parsed view of a target triple (`TargetTripleParsed` in `targets.rs`).
The `original` field keeps the unparsed string verbatim. -/
structure TargetTripleParsed where
  arch : Arch
  vendor : Vendor
  os : Os
  abi : Abi
  original : String
  deriving DecidableEq, Repr

/-- Split a character list at its first occurrence of `sep`, if any. -/
def splitOnFirst (sep : Char) : List Char → Option (List Char × List Char)
  | [] => none
  | c :: rest =>
    if c = sep then some ([], rest)
    else match splitOnFirst sep rest with
      | some (pre, post) => some (c :: pre, post)
      | none => none

/-- Model of Rust `str::splitn(n, sep)`: at most `n` pieces, the last piece
keeps any remaining separators.  `splitn 4 sep s` on an empty string yields
`[[]]`, matching Rust (one empty piece). -/
def splitn (n : Nat) (sep : Char) (s : List Char) : List (List Char) :=
  match n with
  | 0 => []
  | 1 => [s]
  | n + 1 =>
    match splitOnFirst sep s with
    | none => [s]
    | some (pre, post) => pre :: splitn n sep post

/-- Parser from a triple string to its parsed view
(`impl From<TargetTriple> for TargetTripleParsed` in `targets.rs`).
The source splits on `-` into at most 4 components and dispatches by
component count; a 3-token triple whose middle token is `"linux"` is read
as `[arch, os, abi]`, any other 3-token triple as `[arch, vendor, os]`.
Unmatched shapes make every field `Unknown`.  The function is total by
construction, mirroring the fact that the Rust code never fails or panics. -/
def TargetTripleParsed.from (value : String) : TargetTripleParsed :=
  let tokens := (splitn 4 '-' value.data).map (fun l => String.mk l)
  match tokens with
  | [arch, os] =>
    { arch := Arch.from_str arch, vendor := .Unknown, os := Os.from_str os,
      abi := .Unknown, original := value }
  | [a, b, c] =>
    if b = "linux" then
      { arch := Arch.from_str a, vendor := .Unknown, os := Os.from_str b,
        abi := Abi.from_str c, original := value }
    else
      { arch := Arch.from_str a, vendor := Vendor.from_str b, os := Os.from_str c,
        abi := .Unknown, original := value }
  | [a, b, c, d] =>
    { arch := Arch.from_str a, vendor := Vendor.from_str b, os := Os.from_str c,
      abi := Abi.from_str d, original := value }
  | _ =>
    { arch := .Unknown, vendor := .Unknown, os := .Unknown,
      abi := .Unknown, original := value }

/-- Predicate `TargetTripleParsed::is_64bit`. -/
def TargetTripleParsed.is_64bit (p : TargetTripleParsed) : Bool :=
  match p.arch.bit_width with
  | some w => w == 64
  | none => false

/-- Predicate `TargetTripleParsed::is_32bit`. -/
def TargetTripleParsed.is_32bit (p : TargetTripleParsed) : Bool :=
  match p.arch.bit_width with
  | some w => w == 32
  | none => false

/-- Predicate `TargetTripleParsed::is_windows`. -/
def TargetTripleParsed.is_windows (p : TargetTripleParsed) : Bool :=
  p.os = Os.Windows

/-- Predicate `TargetTripleParsed::is_mac`. -/
def TargetTripleParsed.is_mac (p : TargetTripleParsed) : Bool :=
  p.os = Os.Darwin

/-- Predicate `TargetTripleParsed::is_linux`. -/
def TargetTripleParsed.is_linux (p : TargetTripleParsed) : Bool :=
  p.os = Os.Linux

/-- Predicate `TargetTripleParsed::is_gnu`. -/
def TargetTripleParsed.is_gnu (p : TargetTripleParsed) : Bool :=
  p.abi = Abi.Gnu || p.abi = Abi.Gnueabi || p.abi = Abi.Gnueabihf

/-- Predicate `TargetTripleParsed::is_musl`. -/
def TargetTripleParsed.is_musl (p : TargetTripleParsed) : Bool :=
  p.abi = Abi.Musl || p.abi = Abi.Musleabi || p.abi = Abi.Musleabihf

/-- Predicate `TargetTripleParsed::is_msvc`. -/
def TargetTripleParsed.is_msvc (p : TargetTripleParsed) : Bool :=
  p.abi = Abi.Msvc

/-- Predicate `TargetTripleParsed::is_ios`. -/
def TargetTripleParsed.is_ios (p : TargetTripleParsed) : Bool :=
  p.os = Os.Ios

/-- Predicate `TargetTripleParsed::is_android`.  The source checks the
parsed `os` field against `Os::Android` (and nothing else). -/
def TargetTripleParsed.is_android (p : TargetTripleParsed) : Bool :=
  p.os = Os.Android

/-- Predicate `TargetTripleParsed::is_wasm`. -/
def TargetTripleParsed.is_wasm (p : TargetTripleParsed) : Bool :=
  p.arch = Arch.Wasm32

/-- Predicate `TargetTripleParsed::is_bsd`. -/
def TargetTripleParsed.is_bsd (p : TargetTripleParsed) : Bool :=
  p.os = Os.Freebsd || p.os = Os.Netbsd

/-- Predicate `TargetTripleParsed::is_big_endian`. -/
def TargetTripleParsed.is_big_endian (p : TargetTripleParsed) : Bool :=
  match p.arch.endianness with
  | some e => e = Endianness.Big
  | none => false

/-- Predicate `TargetTripleParsed::is_little_endian`. -/
def TargetTripleParsed.is_little_endian (p : TargetTripleParsed) : Bool :=
  match p.arch.endianness with
  | some e => e = Endianness.Little
  | none => false

end Targets

namespace PathModel

/-- Split a character list around its last `'.'`: `some (pre, post)` where
`pre` is everything before the last dot and `post` everything after; `none`
when there is no dot. -/
def splitLastDot : List Char → Option (List Char × List Char)
  | [] => none
  | c :: rest =>
    match splitLastDot rest with
    | some (pre, post) => some (c :: pre, post)
    | none => if c = '.' then some ([], rest) else none

/-- Split a character list on every occurrence of `sep` (the semantics of
`String.splitOn` with a single-character separator): an empty input gives
one empty piece. -/
def splitAllAux (sep : Char) : List Char → List Char → List (List Char)
  | [], acc => [acc.reverse]
  | c :: rest, acc =>
    if c = sep then acc.reverse :: splitAllAux sep rest []
    else splitAllAux sep rest (c :: acc)

/-- Model of `Utf8Path::file_name`: the last normal component of the path
(path components separated by `'/'`, with empty and `"."` components
dropped); `none` when the path is empty, a root, or ends in `".."`. -/
def fileNameOf (p : String) : Option String :=
  let comps := ((splitAllAux '/' p.data []).map (fun l => String.mk l)).filter
    (fun c => c != "" && c != ".")
  match comps.getLast? with
  | some c => if c = ".." then none else some c
  | none => none

/-- Model of `Utf8Path::file_stem`: the file name up to (not including) its
last `'.'`; the whole file name when there is no dot or when the only dot is
the leading character. -/
def fileStemOf (p : String) : Option String :=
  (fileNameOf p).map fun name =>
    match splitLastDot name.data with
    | none => name
    | some ([], _) => name
    | some (pre, _) => String.mk pre

/-- Model of `Utf8Path::extension`: the part of the file name after its last
`'.'`; `none` when there is no dot or when the only dot is the leading
character. -/
def extensionOf (p : String) : Option String :=
  (fileNameOf p).bind fun name =>
    match splitLastDot name.data with
    | none => none
    | some ([], _) => none
    | some (_, post) => some (String.mk post)

/-- Substring test modelling Rust `str::contains(pat)`. -/
def strContains (s pat : String) : Bool :=
  s.data.tails.any (fun t => pat.data.isPrefixOf t)

/-- Suffix test used to state the archive-extension properties. -/
def strEndsWith (s suffix : String) : Bool :=
  suffix.data.isSuffixOf s.data

end PathModel

namespace Lib

open PathModel

/-- Key `TARGET_DIST` from `lib.rs`: the dir under `target/` used for dist. -/
def TARGET_DIST : String := "distrib"

/-- Key `PROFILE_DIST` from `lib.rs`: the cargo profile used for builds. -/
def PROFILE_DIST : String := "dist"

/-- Constant `BUILTIN_FILES` from `lib.rs`: workspace files bundled when
present. -/
def BUILTIN_FILES : List String := ["README.md", "CHANGELOG.md", "RELEASES.md"]

/-- Feature selection for a cargo build (`CargoTargetFeatureList`). -/
inductive CargoTargetFeatureList where
  | All
  | List (features : List String)
  deriving DecidableEq, Repr

/-- Feature flags for a cargo build (`CargoTargetFeatures`). -/
structure CargoTargetFeatures where
  no_default_features : Bool
  features : CargoTargetFeatureList
  deriving DecidableEq, Repr

/-- Package scope of a cargo build (`CargoTargetPackages`). -/
inductive CargoTargetPackages where
  | Workspace
  | Package (package_id : String)
  deriving DecidableEq, Repr

/-- Compression choices for tar bundles (`CompressionImpl` in `lib.rs`).
The variants are documented in the source as `.gz`, `.xz` and `.zstd`. -/
inductive CompressionImpl where
  | Gzip
  | Xzip
  | Zstd
  deriving DecidableEq, Repr

/-- Bundle style of a distributable (`BundleStyle` in `lib.rs`). -/
inductive BundleStyle where
  | Zip
  | Tar (compression : CompressionImpl)
  deriving DecidableEq, Repr

/-- A cargo build task (`CargoBuildTarget` in `lib.rs`).  Expected artifacts
are referenced by dense index into the graph's artifact vector. -/
structure CargoBuildTarget where
  target_triple : String
  features : CargoTargetFeatures
  package : CargoTargetPackages
  profile : String
  expected_artifacts : List Nat
  deriving DecidableEq, Repr

instance : Inhabited CargoBuildTarget :=
  ⟨{ target_triple := "", features := ⟨false, .List []⟩, package := .Workspace,
     profile := "", expected_artifacts := [] }⟩

/-- An executable build artifact (`ExecutableBuildArtifact` in `lib.rs`). -/
structure ExecutableBuildArtifact where
  exe_name : String
  package_id : String
  build_target : Nat
  deriving DecidableEq, Repr

/-- An artifact expected from the builds (`BuildArtifact` in `lib.rs`;
currently only executables). -/
inductive BuildArtifact where
  | Executable (exe : ExecutableBuildArtifact)
  deriving DecidableEq, Repr

instance : Inhabited BuildArtifact := ⟨.Executable ⟨"", "", 0⟩⟩

/-- A distributable bundle to build (`DistributableTarget` in `lib.rs`).
`required_artifacts` is a `HashSet` of indices in the source; here a list
(order is irrelevant to the claims, and the source always stores a
singleton). -/
structure DistributableTarget where
  target_triple : String
  full_name : String
  dir_path : String
  file_name : String
  file_path : String
  bundle : BundleStyle
  required_artifacts : List Nat
  assets : List String
  deriving DecidableEq, Repr

instance : Inhabited DistributableTarget :=
  ⟨{ target_triple := "", full_name := "", dir_path := "", file_name := "",
     file_path := "", bundle := .Zip, required_artifacts := [], assets := [] }⟩

/-- A logical release grouping distributables (`ReleaseTarget` in `lib.rs`).
The app version is modelled as its display string. -/
structure ReleaseTarget where
  app_name : String
  version : String
  distributables : List Nat
  deriving DecidableEq, Repr

/-- The precomputed work graph (`DistGraph` in `lib.rs`); the `cargo`
executable path is irrelevant to the claims and omitted. -/
structure DistGraph where
  target_dir : String
  workspace_dir : String
  dist_dir : String
  targets : List CargoBuildTarget
  artifacts : List BuildArtifact
  distributables : List DistributableTarget
  releases : List ReleaseTarget
  deriving Repr

/-- A build target of a cargo package as reported by guppy
(`BuildTargetId`); only `Binary` targets are inspected by the core. -/
inductive BuildTargetId where
  | Binary (name : String)
  | OtherTarget
  deriving DecidableEq, Repr

/-- A workspace package as supplied by the workspace-metadata collaborator:
id, semver version (modelled as its display string), and build targets. -/
structure PackageInfo where
  pkg_id : String
  version : String
  build_targets : List BuildTargetId
  deriving DecidableEq, Repr

/-- Input to `gather_work`, as supplied by the external workspace-metadata
loader and cargo: target directory, workspace root, member packages, and
the host target triple reported by `cargo -vV`. -/
structure WorkspaceModel where
  target_dir : String
  workspace_root : String
  packages : List PackageInfo
  host_triple : String
  deriving Repr

/-- Helper `artifacts_for_cargo_packages` from `lib.rs`: one executable
artifact per `Binary` build target of each package, in package order. -/
def artifacts_for_cargo_packages (target_idx : Nat) (packages : List PackageInfo) :
    List BuildArtifact :=
  packages.flatMap fun package =>
    package.build_targets.filterMap fun bt =>
      match bt with
      | .Binary name => some (.Executable ⟨name, package.pkg_id, target_idx⟩)
      | .OtherTarget => none

/-- The bundle style chosen by `gather_work`: `Zip` when the target triple
contains the substring `"windows"`, `Tar(Xzip)` otherwise. -/
def bundleFor (target_triple : String) : BundleStyle :=
  if strContains target_triple "windows" then .Zip else .Tar .Xzip

/-- The archive file extension for a bundle style, from the `file_ext`
match in `gather_work` (`lib.rs` lines 427-432). -/
def file_ext : BundleStyle → String
  | .Zip => "zip"
  | .Tar .Gzip => "tar.gz"
  | .Tar .Zstd => "tar.zstd"
  | .Tar .Xzip => "tar.xz"

/-- Version lookup for an artifact's owning package, modelling
`pkg_graph.metadata(&exe.package_id).unwrap().version()`.  Cargo package
ids are unique, and `gather_work` only looks up ids taken from the
workspace's own package list, so the `none` branch is unreachable there. -/
def versionOf (ws : WorkspaceModel) (package_id : String) : String :=
  match ws.packages.find? (fun p => p.pkg_id = package_id) with
  | some p => p.version
  | none => ""

/-- The distributable synthesized by `gather_work` for artifact `idx`. -/
def mkDistributable (ws : WorkspaceModel) (file_exists : String → Bool)
    (targets : List CargoBuildTarget) (dist_dir : String)
    (idx : Nat) (exe : ExecutableBuildArtifact) : DistributableTarget :=
  let target_triple := (targets.getD exe.build_target default).target_triple
  let bundle := bundleFor target_triple
  let assets := BUILTIN_FILES.filterMap fun f =>
    let file := ws.workspace_root ++ "/" ++ f
    if file_exists file then some file else none
  let app_name := exe.exe_name
  let version := versionOf ws exe.package_id
  let full_name := app_name ++ "-v" ++ version ++ "-" ++ target_triple
  let dir_path := dist_dir ++ "/" ++ full_name
  let file_name := full_name ++ "." ++ file_ext bundle
  let file_path := dist_dir ++ "/" ++ file_name
  { target_triple := target_triple, full_name := full_name, dir_path := dir_path,
    file_name := file_name, file_path := file_path, bundle := bundle,
    required_artifacts := [idx], assets := assets }

/-- Append distributable index `dIdx` to the release keyed by
`(app, ver)`, creating the release if absent; models
`releases.entry((app_name, version)).or_insert_with(...)` followed by
`release.distributables.push(distributable_idx)`.  The source keys a
`HashMap`, whose iteration order is unspecified; the list here fixes
insertion order, which no claim depends on. -/
def pushDistrib (app ver : String) (dIdx : Nat) :
    List ReleaseTarget → List ReleaseTarget
  | [] => [{ app_name := app, version := ver, distributables := [dIdx] }]
  | r :: rest =>
    if r.app_name = app ∧ r.version = ver then
      { r with distributables := r.distributables ++ [dIdx] } :: rest
    else
      r :: pushDistrib app ver dIdx rest

/-- Release map built by the `gather_work` loop: artifact `idx` contributes
its distributable index `idx` under key `(exe_name, version)`. -/
def buildReleases (ws : WorkspaceModel) :
    List (Nat × BuildArtifact) → List ReleaseTarget → List ReleaseTarget
  | [], rs => rs
  | (idx, .Executable exe) :: rest, rs =>
    buildReleases ws rest
      (pushDistrib exe.exe_name (versionOf ws exe.package_id) idx rs)

/-- Model of `gather_work` from `lib.rs`: one cargo build task for the host
triple over the whole workspace with the `"dist"` profile and default
features; one executable artifact per workspace binary; one distributable
per artifact; releases grouped by `(app_name, version)`.  The source fills
distributables and releases in a single loop over the enumerated artifacts;
here the same loop is split into a map (distributables) and a fold
(releases) over the same enumeration, producing identical vectors.
`file_exists` stands for the filesystem queried via `Utf8Path::exists`. -/
def gather_work (ws : WorkspaceModel) (file_exists : String → Bool) : DistGraph :=
  let dist_dir := ws.target_dir ++ "/" ++ TARGET_DIST
  let artifacts := artifacts_for_cargo_packages 0 ws.packages
  let targets := [{ target_triple := ws.host_triple,
                    features := ⟨false, .List []⟩,
                    package := .Workspace,
                    profile := PROFILE_DIST,
                    expected_artifacts := List.range artifacts.length }]
  let distributables := artifacts.enum.map fun pair =>
    match pair with
    | (idx, .Executable exe) => mkDistributable ws file_exists targets dist_dir idx exe
  let releases := buildReleases ws artifacts.enum []
  { target_dir := ws.target_dir, workspace_dir := ws.workspace_root,
    dist_dir := dist_dir, targets := targets, artifacts := artifacts,
    distributables := distributables, releases := releases }

/-- Modelled from the spec: the per-distributable `kind` tag of the output
manifest (`cargo_dist_schema::DistributableKind`, a crate of this
repository whose source is not under `src/`); the spec's interface section
gives it the shape `"Zip" | "Tar*"`. -/
inductive DistributableKind where
  | Zip
  | Tar
  deriving DecidableEq, Repr

/-- An artifact entry of the report (`cargo_dist_schema::ExecutableArtifact`
as filled by `do_dist`): name and basename-only path. -/
structure ExecutableArtifactEntry where
  name : String
  path : String
  deriving DecidableEq, Repr

/-- A distributable entry of the report (`cargo_dist_schema::Distributable`
as filled by `do_dist`). -/
structure DistributableEntry where
  path : String
  target_triple : String
  artifacts : List ExecutableArtifactEntry
  kind : DistributableKind
  deriving DecidableEq, Repr

instance : Inhabited DistributableEntry :=
  ⟨{ path := "", target_triple := "", artifacts := [], kind := .Zip }⟩

/-- A release entry of the report (`cargo_dist_schema::Release` as filled
by `do_dist`). -/
structure ReleaseEntry where
  app_name : String
  app_version : String
  distributables : List DistributableEntry
  deriving DecidableEq, Repr

instance : Inhabited ReleaseEntry :=
  ⟨{ app_name := "", app_version := "", distributables := [] }⟩

/-- The report assembly at the end of `do_dist` (`lib.rs` lines 271-307):
for each release of the graph, map its distributable indices to report
entries; each artifact's reported path is the basename of the built
artifact's path (`artifact_path.file_name().unwrap()`), and the `kind`
field is the literal `cargo_dist_schema::DistributableKind::Zip` on every
entry (`lib.rs` line 301).  `built` maps each artifact index to the
executable path produced for it by the builds. -/
def doDistReport (dist : DistGraph) (built : Nat → String) : List ReleaseEntry :=
  dist.releases.map fun release =>
    { app_name := release.app_name,
      app_version := release.version,
      distributables := release.distributables.map fun distrib_idx =>
        let distrib := dist.distributables.getD distrib_idx default
        { path := distrib.file_path,
          target_triple := distrib.target_triple,
          artifacts := distrib.required_artifacts.map fun artifact_idx =>
            match dist.artifacts.getD artifact_idx default with
            | .Executable exe =>
              { name := exe.exe_name,
                path := (fileNameOf (built artifact_idx)).getD "" }
          kind := .Zip } }

/-- The compression stream constructors available to `tar_distributable`:
`flate2::GzBuilder` (gzip), `xz2::XzEncoder` (xz), `flate2::ZlibEncoder`
(zlib) and — for comparison with the spec — a zstd stream, which the
source never constructs. -/
inductive StreamKind where
  | gzipStream
  | xzStream
  | zlibStream
  | zstdStream
  deriving DecidableEq, Repr

/-- Observable output of `tar_distributable` (`lib.rs` lines 812-920): which
compression stream wraps the output file, the name of the single top-level
tar entry passed to `tar.append_dir_all`, and the directory archived under
that entry. -/
structure TarOutput where
  stream : StreamKind
  tarEntryName : String
  tarSrcDir : String
  deriving DecidableEq, Repr

/-- Model of `tar_distributable`: in every compression arm the source wraps
`final_zip_file` in one encoder and then calls
`tar.append_dir_all(distrib_dir_name, &distrib.dir_path)` where
`distrib_dir_name = &distrib.full_name`.  The `Gzip` arm constructs a
`GzBuilder` (gzip stream), the `Xzip` arm an `XzEncoder` (xz stream), and
the `Zstd` arm a `flate2::write::ZlibEncoder` — a zlib stream, not zstd. -/
def tar_distributable (distrib : DistributableTarget)
    (compression : CompressionImpl) : TarOutput :=
  match compression with
  | .Gzip => { stream := .gzipStream, tarEntryName := distrib.full_name,
               tarSrcDir := distrib.dir_path }
  | .Xzip => { stream := .xzStream, tarEntryName := distrib.full_name,
               tarSrcDir := distrib.dir_path }
  | .Zstd => { stream := .zlibStream, tarEntryName := distrib.full_name,
               tarSrcDir := distrib.dir_path }

/-- The compression stream the specification pairs with each
`CompressionImpl` (a gzip stream for `Gzip`, an xz stream for `Xzip`, a
zstd stream for `Zstd`). -/
def specStream : CompressionImpl → StreamKind
  | .Gzip => .gzipStream
  | .Xzip => .xzStream
  | .Zstd => .zstdStream

end Lib

namespace Build

open PathModel

/-- Lookup in an association list, modelling `SortedMap::get`.  A
`SortedMap` (`BTreeMap`) has unique keys; the lists used here carry its
entries in iteration (key-sorted) order. -/
def lookupA {V : Type} (l : List (String × V)) (k : String) : Option V :=
  match l.find? (fun p => p.1 = k) with
  | some p => some p.2
  | none => none

/-- Update the first entry with key `k` in an association list, modelling
`SortedMap::get_mut` followed by a write (keys are unique, so at most one
entry matches). -/
def updateFirst {V : Type} (k : String) (f : V → V) :
    List (String × V) → List (String × V)
  | [] => []
  | p :: rest =>
    if p.1 = k then (p.1, f p.2) :: rest else p :: updateFirst k f rest

/-- Insert-or-replace in an association list, modelling
`SortedMap::insert` / `BTreeMap::insert` content-wise (the source keeps
keys sorted; the position of a fresh key does not matter to the claims). -/
def insertA {V : Type} (k : String) (v : V) :
    List (String × V) → List (String × V)
  | [] => [(k, v)]
  | p :: rest =>
    if p.1 = k then (k, v) :: rest else p :: insertA k v rest

/-- A binary expected from a build (`ExpectedBinary` in `build/mod.rs`):
graph index, source path filled in by `found_bin`, and qualifying symbol
paths. -/
structure ExpectedBinary where
  idx : Nat
  src_path : Option String
  sym_paths : List String
  deriving DecidableEq, Repr

/-- Per-package expectations (`BinaryExpectations` in `build/mod.rs`):
binaries keyed by executable name. -/
structure BinaryExpectations where
  binaries : List (String × ExpectedBinary)
  deriving DecidableEq, Repr

/-- All build expectations (`BuildExpectations` in `build/mod.rs`):
packages keyed by package-id string, plus the `--artifacts=lies` flag. -/
structure BuildExpectations where
  packages : List (String × BinaryExpectations)
  fake : Bool
  deriving DecidableEq, Repr

/-- Symbol-kind policy of `found_bin`:
`sym_path.extension().map(|e| e == "pdb").unwrap_or(false)`. -/
def isPdb (sym_path : String) : Bool :=
  match extensionOf sym_path with
  | some e => e == "pdb"
  | none => false

/-- Model of `BuildExpectations::found_bin` (`build/mod.rs` lines 86-121):
look up the package by id (drop the report if absent), compute the file
stem of the produced path (drop if absent), look up the binary by stem
(drop if absent); on a hit overwrite `src_path` with the produced path and
append the symbol candidates whose extension is `"pdb"` to `sym_paths`. -/
def found_bin (st : BuildExpectations) (pkg_id : String) (src_path : String)
    (maybe_symbols : List String) : BuildExpectations :=
  match lookupA st.packages pkg_id with
  | none => st
  | some pkg =>
    match fileStemOf src_path with
    | none => st
    | some bin_name =>
      match lookupA pkg.binaries bin_name with
      | none => st
      | some _ =>
        let updBin := fun (b : ExpectedBinary) =>
          { b with src_path := some src_path,
                   sym_paths := b.sym_paths ++ maybe_symbols.filter isPdb }
        let updPkg := fun (pkg : BinaryExpectations) =>
          { binaries := updateFirst bin_name updBin pkg.binaries }
        { st with packages := updateFirst pkg_id updPkg st.packages }

/-- Combined lookup of a binary's expectation entry: package by id, then
binary by name within that package. -/
def binLookup (st : BuildExpectations) (pkg_id bin_name : String) :
    Option ExpectedBinary :=
  match lookupA st.packages pkg_id with
  | none => none
  | some pkg => lookupA pkg.binaries bin_name

/-- A library entry of a linkage report
(`cargo_dist_schema::Library`). -/
structure Library where
  path : String
  source : Option String
  deriving DecidableEq, Repr

/-- Modelled from the spec: a linkage report
(`cargo_dist_schema::Linkage`, not under `src/`) classifies libraries into
ordered buckets; only the `other` bucket is touched by the code under
`src/` (the fake path inserts a single `"fakelib"` entry there). -/
structure Linkage where
  system : List Library
  homebrew : List Library
  public_unmanaged : List Library
  frameworks : List Library
  other : List Library
  deriving DecidableEq, Repr

/-- Default (empty) linkage report, `cargo_dist_schema::Linkage::default()`. -/
def Linkage.empty : Linkage :=
  { system := [], homebrew := [], public_unmanaged := [], frameworks := [],
    other := [] }

/-- The placeholder linkage synthesized by `compute_linkage` when
`fake = true`: a default report with a single `"fakelib"` entry in `other`
and no source classification. -/
def fakeLinkage : Linkage :=
  { Linkage.empty with other := [{ path := "fakelib", source := none }] }

/-- An asset record of the manifest (`cargo_dist_schema::AssetInfo` as
filled by `compute_linkage`). -/
structure AssetInfo where
  id : String
  name : String
  system : String
  linkage : Option Linkage
  deriving DecidableEq, Repr

/-- The part of the output manifest written by `process_bins`
(`DistManifest.assets`, keyed by binary id). -/
structure DistManifest where
  assets : List (String × AssetInfo)
  deriving DecidableEq, Repr

/-- A binary of the newer `DistGraph` as used by `build/mod.rs`
(`crate::Binary`): identity, display name, target triple, and declared
copy destinations for the executable and its symbol files. -/
structure Binary where
  id : String
  name : String
  target : String
  copy_exe_to : List String
  copy_symbols_to : List String
  deriving DecidableEq, Repr

instance : Inhabited Binary :=
  ⟨{ id := "", name := "", target := "", copy_exe_to := [], copy_symbols_to := [] }⟩

/-- Modelled from the spec: the slice of the newer `DistGraph` (the crate
version `build/mod.rs` belongs to, not under `src/`) that `process_bins`
reads — `dist.binary(idx)` and `dist.system_id`. -/
structure DistGraph where
  binaries : List Binary
  system_id : String

/-- Indexing `dist.binary(idx)`; indices produced by the graph builder are
always in range. -/
def DistGraph.binary (dist : DistGraph) (idx : Nat) : Binary :=
  dist.binaries.getD idx default

/-- Pure model of the external collaborators `process_bins` calls into:
`path.exists()` on the filesystem and
`determine_linkage(path, target)` (the linkage analyzer, an external
collaborator per the spec; modelled as a total function, i.e. on runs
where linkage analysis succeeds). -/
structure Env where
  path_exists : String → Bool
  det_linkage : String → String → Linkage

/-- The error returned for an absent binary
(`DistError::MissingBinaries { pkg_name, bin_name }`). -/
structure MissingBinaries where
  pkg_name : String
  bin_name : String
  deriving DecidableEq, Repr

/-- Whether an expectation entry is missing in the sense of `process_bins`:
`src_path` was never set, or the recorded path does not exist on disk. -/
def entryMissing (env : Env) (rb : ExpectedBinary) : Bool :=
  match rb.src_path with
  | none => true
  | some sp => !env.path_exists sp

/-- All expectation entries in iteration order: packages in map order, then
binaries in map order within each package — exactly the nested loops of
`process_bins`. -/
def allEntries (st : BuildExpectations) : List (String × String × ExpectedBinary) :=
  st.packages.flatMap fun pp =>
    pp.2.binaries.map fun bb => (pp.1, bb.1, bb.2)

/-- The linkage report computed for one binary (`compute_linkage`):
the fake placeholder when `fake = true`, the analyzer's report otherwise. -/
def linkageFor (st : BuildExpectations) (env : Env) (sp : String)
    (bin : Binary) : Linkage :=
  if st.fake then fakeLinkage else env.det_linkage sp bin.target

/-- The file copies performed for one located binary (`copy_assets`): the
executable to every `copy_exe_to` destination, then every recorded symbol
path to every `copy_symbols_to` destination, as `(src, dest)` pairs. -/
def copyPlan (sp : String) (rb : ExpectedBinary) (bin : Binary) :
    List (String × String) :=
  bin.copy_exe_to.map (fun dest => (sp, dest)) ++
    rb.sym_paths.flatMap fun sym => bin.copy_symbols_to.map (fun dest => (sym, dest))

/-- Loop body state of `process_bins`: manifest so far, copies performed so
far, and missing entries recorded so far. -/
structure ProcessState where
  manifest : DistManifest
  copies : List (String × String)
  missing : List (String × String)

/-- The loop of `process_bins` over the flattened entries: a missing entry
is recorded; a located entry gets its linkage computed, an `AssetInfo`
inserted into the manifest under the binary's id, and its copies
performed. -/
def processLoop (st : BuildExpectations) (dist : DistGraph) (env : Env) :
    List (String × String × ExpectedBinary) → ProcessState → ProcessState
  | [], acc => acc
  | (pkg_id, bin_name, rb) :: rest, acc =>
    match rb.src_path with
    | none =>
      processLoop st dist env rest
        { acc with missing := acc.missing ++ [(pkg_id, bin_name)] }
    | some sp =>
      if env.path_exists sp then
        let bin := dist.binary rb.idx
        let linkage := linkageFor st env sp bin
        let asset : AssetInfo :=
          { id := bin.id, name := bin.name, system := dist.system_id,
            linkage := some linkage }
        processLoop st dist env rest
          { manifest := { assets := insertA bin.id asset acc.manifest.assets },
            copies := acc.copies ++ copyPlan sp rb bin,
            missing := acc.missing }
      else
        processLoop st dist env rest
          { acc with missing := acc.missing ++ [(pkg_id, bin_name)] }

/-- Model of `BuildExpectations::process_bins` (`build/mod.rs` lines
135-165): run the loop over all entries, then return the first recorded
missing entry as a `MissingBinaries` error (the source's trailing loop
returns on its first iteration), or succeed.  The result carries the
updated manifest, the copies performed, and the reported error if any. -/
def process_bins (st : BuildExpectations) (dist : DistGraph) (env : Env)
    (manifest : DistManifest) :
    DistManifest × List (String × String) × Option MissingBinaries :=
  let final := processLoop st dist env (allEntries st)
    { manifest := manifest, copies := [], missing := [] }
  (final.manifest, final.copies,
    (final.missing.head?).map fun p => { pkg_name := p.1, bin_name := p.2 })

/-- Stated from the spec's words, for comparison with `process_bins`: the
first expectation entry, in iteration order, whose `src_path` is absent or
names a non-existent file. -/
def firstMissingSpec (st : BuildExpectations) (env : Env) :
    Option MissingBinaries :=
  ((allEntries st).find? (fun e => entryMissing env e.2.2)).map fun e =>
    { pkg_name := e.1, bin_name := e.2.1 }

end Build

namespace InitCmd

/-- A toml value as far as `do_init` writes them: strings, booleans, and
string arrays. -/
inductive TomlValue where
  | str (s : String)
  | boolean (b : Bool)
  | strArr (l : List String)
  deriving DecidableEq, Repr

/-- The slice of the workspace manifest `do_init` reads and writes: the
`profile.dist` table and the `[workspace.metadata.dist]` (or
`[package.metadata.dist]`) table, each `none` when absent.  Which of the
two metadata locations is used depends only on whether the root manifest
is a package; the inserted content is identical, so the location key is
not modelled. -/
structure TomlDoc where
  profile_dist : Option (List (String × TomlValue))
  metadata_dist : Option (List (String × TomlValue))
  deriving DecidableEq, Repr

/-- The `[profile.dist]` table inserted by `do_init`: inherits release,
full debuginfo, packed split-debuginfo. -/
def distProfileTable : List (String × TomlValue) :=
  [("inherits", .str "release"), ("debug", .boolean true),
   ("split-debuginfo", .str "packed")]

/-- The `[*.metadata.dist]` table inserted by `do_init`: the source fills
it with two placeholder keys (`lib.rs` lines 1211-1225, commented as
"fake placeholders"), not an empty table. -/
def distMetadataTable : List (String × TomlValue) :=
  [("os", .strArr ["windows", "macos", "linux"]),
   ("cpu", .strArr ["x86_64", "arm64"])]

/-- Model of `do_init` (`lib.rs` lines 1036-1241) on the manifest slice:
error if `profile.dist` already exists; otherwise insert
`distProfileTable`; error if the `metadata.dist` table already exists;
otherwise insert `distMetadataTable` and write the manifest.  An `error`
result means the manifest file is never written (the single write happens
after both checks); the `ok` value is the document written back.  The
error strings are the two `already init!` messages of the source. -/
def do_init (doc : TomlDoc) : Except String TomlDoc :=
  if doc.profile_dist.isSome then
    .error "already init! (based on [profile.dist] existing in your Cargo.toml)"
  else
    let doc := { doc with profile_dist := some distProfileTable }
    if doc.metadata_dist.isSome then
      .error "already init! (based on [workspace.metadata.dist] existing in your Cargo.toml)"
    else
      .ok { doc with metadata_dist := some distMetadataTable }

end InitCmd

namespace Lib

/-- Artifact index `i` is required by the distributable at position `j` of
the graph's distributable vector. -/
def appearsInDistrib (g : DistGraph) (i j : Nat) : Prop :=
  match g.distributables[j]? with
  | some d => i ∈ d.required_artifacts
  | none => False

instance (g : DistGraph) (i j : Nat) : Decidable (appearsInDistrib g i j) := by
  unfold appearsInDistrib
  exact match g.distributables[j]? with
    | some _ => inferInstance
    | none => inferInstance

/-- Stated from the spec's words, for comparison with `doDistReport`: in
the report returned by `do_dist`, every distributable entry's `kind` tag
equals the bundle style of the graph distributable it was built from —
`Zip` exactly when the bundle style is `Zip`, and `Tar` exactly when the
bundle style is `Tar(c)`.  Report entries are aligned with graph
distributables positionally, exactly as `do_dist` builds them. -/
def ClaimC1 (g : DistGraph) (report : List ReleaseEntry) : Prop :=
  ∀ (rIdx dPos : Nat) (rel : ReleaseTarget) (dIdx : Nat)
    (d : DistributableTarget) (relEntry : ReleaseEntry) (de : DistributableEntry),
    g.releases[rIdx]? = some rel →
    rel.distributables[dPos]? = some dIdx →
    g.distributables[dIdx]? = some d →
    report[rIdx]? = some relEntry →
    relEntry.distributables[dPos]? = some de →
    ((de.kind = .Zip ↔ d.bundle = .Zip) ∧
     (de.kind = .Tar ↔ ∃ c, d.bundle = .Tar c))

end Lib

namespace Build

/-- The copies contributed by one expectation entry during the
`process_bins` loop: none when the entry is missing, its `copyPlan`
otherwise. -/
def entryCopies (env : Env) (dist : DistGraph)
    (e : String × String × ExpectedBinary) : List (String × String) :=
  match e.2.2.src_path with
  | none => []
  | some sp =>
    if env.path_exists sp then copyPlan sp e.2.2 (dist.binary e.2.2.idx) else []

end Build

namespace Examples

/-- A single-package workspace: package `mypkg 1.2.3` with one binary
`foo`, non-windows host. -/
def ws0 : Lib.WorkspaceModel :=
  { target_dir := "/ws/target", workspace_root := "/ws",
    packages := [⟨"mypkg", "1.2.3", [.Binary "foo"]⟩],
    host_triple := "x86_64-unknown-linux-gnu" }

/-- The same workspace on a windows host. -/
def ws1 : Lib.WorkspaceModel :=
  { ws0 with host_triple := "x86_64-pc-windows-msvc" }

/-- A filesystem with none of the builtin asset files present. -/
def fe0 : String → Bool := fun _ => false

/-- Built-artifact paths for the example workspace. -/
def b0 : Nat → String := fun _ => "/ws/target/distrib-build/foo"

/-- Fresh build expectations: package `p` expects binary `foo`. -/
def st0 : Build.BuildExpectations :=
  ⟨[("p", ⟨[("foo", ⟨0, none, []⟩)]⟩)], false⟩

/-- Expectations after locating `foo` at `/out/foo`. -/
def stLoc : Build.BuildExpectations :=
  ⟨[("p", ⟨[("foo", ⟨0, some "/out/foo", []⟩)]⟩)], false⟩

/-- A one-binary dist graph slice for the reconciler examples. -/
def dist0 : Build.DistGraph :=
  ⟨[⟨"bin-id-0", "foo", "x86_64-unknown-linux-gnu", ["/dist/a/foo"], []⟩], "sys"⟩

/-- An environment where every path exists and linkage analysis returns an
empty report. -/
def env0 : Build.Env := ⟨fun _ => true, fun _ _ => Build.Linkage.empty⟩

end Examples

/-!
Theorems.  Each claim of the specification is settled by one theorem
below; shared helper lemmas come first where needed.
-/

/-- C2: parsing "aarch64-linux-android" yields arch = Aarch64,
vendor = Unknown, os = Linux, abi = Android, and `is_linux` is true — but
`is_android` is false, not true as claimed: the source's `is_android`
inspects only the parsed `os` field (`matches!(self.os, Os::Android)`),
and for this triple the android-ness lands in the `abi` field while `os`
is `Linux`.  This contradicts the predicate's own documentation
("Returns whether this is an Android target"): it returns false on every
rustc Android triple, all of which have the shape `*-linux-android`. -/
theorem c2_android_triple :
    Targets.TargetTripleParsed.from "aarch64-linux-android" =
      { arch := .Aarch64, vendor := .Unknown, os := .Linux, abi := .Android,
        original := "aarch64-linux-android" } ∧
    (Targets.TargetTripleParsed.from "aarch64-linux-android").is_linux = true ∧
    (Targets.TargetTripleParsed.from "aarch64-linux-android").is_android = false := by
  decide

/-- C10: the derived predicates of a parsed triple are consistent —
`is_64bit` and `is_32bit` are never both true, `is_big_endian` and
`is_little_endian` are never both true, and when the architecture is
`Unknown` or `Other` all four predicates are false. -/
theorem c10_predicate_consistency :
    ∀ p : Targets.TargetTripleParsed,
      (¬(p.is_64bit = true ∧ p.is_32bit = true)) ∧
      (¬(p.is_big_endian = true ∧ p.is_little_endian = true)) ∧
      ((p.arch = .Unknown ∨ ∃ s, p.arch = .Other s) →
        p.is_64bit = false ∧ p.is_32bit = false ∧
        p.is_big_endian = false ∧ p.is_little_endian = false) := by
  rintro ⟨arch, vendor, os, abi, original⟩
  refine ⟨?_, ?_, ?_⟩ <;> cases arch <;>
    simp [Targets.TargetTripleParsed.is_64bit, Targets.TargetTripleParsed.is_32bit,
      Targets.TargetTripleParsed.is_big_endian, Targets.TargetTripleParsed.is_little_endian,
      Targets.Arch.bit_width, Targets.Arch.endianness]

/-- Witness for C10 at a parsed triple with an `Unknown` architecture. -/
theorem c10_witness :
    Targets.TargetTripleParsed.is_64bit ⟨.Unknown, .Unknown, .Unknown, .Unknown, ""⟩ = false ∧
    Targets.TargetTripleParsed.is_32bit ⟨.Unknown, .Unknown, .Unknown, .Unknown, ""⟩ = false ∧
    Targets.TargetTripleParsed.is_big_endian ⟨.Unknown, .Unknown, .Unknown, .Unknown, ""⟩ = false ∧
    Targets.TargetTripleParsed.is_little_endian ⟨.Unknown, .Unknown, .Unknown, .Unknown, ""⟩ = false :=
  (c10_predicate_consistency ⟨.Unknown, .Unknown, .Unknown, .Unknown, ""⟩).2.2 (Or.inl rfl)

/-- C4: triple parsing is total (the parser is a total function on all
strings, for any token count — the source never fails or panics), the
`original` field of the result is the input verbatim, and each enum
dispatch either returns the table variant whose literal is exactly the
token or falls back to `Other(token)` (with `"unknown"` itself a table
literal mapping to `Unknown`). -/
theorem c4_parser_total :
    (∀ t : String, (Targets.TargetTripleParsed.from t).original = t) ∧
    (∀ s : String, (∃ a, Targets.Arch.from_str s = a ∧ Targets.Arch.literal a = some s) ∨
      Targets.Arch.from_str s = .Other s) ∧
    (∀ s : String, (∃ v, Targets.Vendor.from_str s = v ∧ Targets.Vendor.literal v = some s) ∨
      Targets.Vendor.from_str s = .Other s) ∧
    (∀ s : String, (∃ o, Targets.Os.from_str s = o ∧ Targets.Os.literal o = some s) ∨
      Targets.Os.from_str s = .Other s) ∧
    (∀ s : String, (∃ a, Targets.Abi.from_str s = a ∧ Targets.Abi.literal a = some s) ∨
      Targets.Abi.from_str s = .Other s) := by
  refine ⟨?_, ?_, ?_, ?_, ?_⟩
  · intro t
    unfold Targets.TargetTripleParsed.from
    dsimp only
    split
    · rfl
    · split <;> rfl
    · rfl
    · rfl
  · intro s
    unfold Targets.Arch.from_str
    split
    all_goals try (exact Or.inl ⟨_, rfl, rfl⟩)
    exact Or.inr rfl
  · intro s
    unfold Targets.Vendor.from_str
    split
    all_goals try (exact Or.inl ⟨_, rfl, rfl⟩)
    exact Or.inr rfl
  · intro s
    unfold Targets.Os.from_str
    split
    all_goals try (exact Or.inl ⟨_, rfl, rfl⟩)
    exact Or.inr rfl
  · intro s
    unfold Targets.Abi.from_str
    split
    all_goals try (exact Or.inl ⟨_, rfl, rfl⟩)
    exact Or.inr rfl

/-- C3: for a `Tar(c)` distributable the archive builder always writes a
tar whose single top-level entry, named `full_name`, is the staging
directory; the compression stream is a gzip stream for `Gzip` and an xz
stream for `Xzip` as claimed — but for `Zstd` the source wraps the output
file in `flate2::write::ZlibEncoder`, a zlib stream, not a zstd stream,
contradicting the variant's own documentation (`.zstd`) and the
`"tar.zstd"` file extension attached to such archives. -/
theorem c3_tar_distributable :
    ∀ d : Lib.DistributableTarget,
      ((Lib.tar_distributable d .Gzip).stream = .gzipStream ∧
        Lib.specStream .Gzip = .gzipStream) ∧
      ((Lib.tar_distributable d .Xzip).stream = .xzStream ∧
        Lib.specStream .Xzip = .xzStream) ∧
      ((Lib.tar_distributable d .Zstd).stream = .zlibStream ∧
        Lib.specStream .Zstd = .zstdStream ∧
        (Lib.tar_distributable d .Zstd).stream ≠ Lib.specStream .Zstd) ∧
      (∀ c, (Lib.tar_distributable d c).tarEntryName = d.full_name ∧
        (Lib.tar_distributable d c).tarSrcDir = d.dir_path) := by
  intro d
  refine ⟨⟨rfl, rfl⟩, ⟨rfl, rfl⟩, ⟨rfl, rfl, fun h => nomatch h⟩, ?_⟩
  intro c
  cases c <;> exact ⟨rfl, rfl⟩

/-- Counterexample to C9 as stated: running `do_init` on a fresh manifest
does not produce an empty `[*.metadata.dist]` block — the block it writes
carries the two placeholder keys `os` and `cpu` (`lib.rs` fills the new
metadata table with arrays commented as "fake placeholders"). -/
theorem c9_counterexample :
    InitCmd.do_init ⟨none, none⟩ ≠
      Except.ok ⟨some InitCmd.distProfileTable, some []⟩ ∧
    InitCmd.do_init ⟨none, none⟩ =
      Except.ok ⟨some InitCmd.distProfileTable, some InitCmd.distMetadataTable⟩ := by
  constructor
  · intro h
    have h2 := Except.ok.inj h
    have h3 := congrArg InitCmd.TomlDoc.metadata_dist h2
    simp [InitCmd.do_init, InitCmd.distMetadataTable] at h3
  · rfl

/-- C9 (amended): `do_init` rewrites the manifest so that it contains a
`profile.dist` table with `inherits = "release"`, `debug = true` and
`split-debuginfo = "packed"`, and a `[*.metadata.dist]` block holding the
placeholder keys `os = ["windows", "macos", "linux"]` and
`cpu = ["x86_64", "arm64"]` (not an empty block); it fails with an
already-init error when `profile.dist` or the metadata.dist block already
exists, leaving the manifest unwritten in that case. -/
theorem c9_do_init :
    ∀ doc : InitCmd.TomlDoc,
      (doc.profile_dist = none → doc.metadata_dist = none →
        InitCmd.do_init doc =
          Except.ok ⟨some InitCmd.distProfileTable, some InitCmd.distMetadataTable⟩) ∧
      ((doc.profile_dist ≠ none ∨ doc.metadata_dist ≠ none) →
        ∃ e, InitCmd.do_init doc = Except.error e) := by
  rintro ⟨pd, md⟩
  constructor
  · rintro rfl rfl
    rfl
  · rintro (h | h)
    · cases pd with
      | none => exact absurd rfl h
      | some t => exact ⟨_, rfl⟩
    · cases md with
      | none => exact absurd rfl h
      | some t =>
        cases pd with
        | none => exact ⟨_, rfl⟩
        | some t2 => exact ⟨_, rfl⟩

/-- Witness for C9 at a fresh manifest and at one that already has a
`profile.dist` table. -/
theorem c9_witness :
    InitCmd.do_init ⟨none, none⟩ =
      Except.ok ⟨some InitCmd.distProfileTable, some InitCmd.distMetadataTable⟩ ∧
    ∃ e, InitCmd.do_init ⟨some [], none⟩ = Except.error e :=
  ⟨(c9_do_init ⟨none, none⟩).1 rfl rfl,
   (c9_do_init ⟨some [], none⟩).2 (Or.inl (fun h => nomatch h))⟩

/-- Unfolding lemma: association lookup on a cons cell. -/
theorem Build.lookupA_cons {V : Type} (p : String × V) (rest : List (String × V))
    (k : String) :
    Build.lookupA (p :: rest) k = if p.1 = k then some p.2 else Build.lookupA rest k := by
  by_cases h : p.1 = k <;> simp [Build.lookupA, List.find?_cons, h]

/-- Updating the entry at key `k` is visible to a lookup at `k`. -/
theorem Build.lookupA_updateFirst_self {V : Type} (k : String) (f : V → V) :
    ∀ l : List (String × V),
      Build.lookupA (Build.updateFirst k f l) k = (Build.lookupA l k).map f := by
  intro l
  induction l with
  | nil => rfl
  | cons p rest ih =>
    by_cases h : p.1 = k <;>
      simp [Build.updateFirst, Build.lookupA_cons, h, ih]

/-- C7: `found_bin` updates exactly the expected entry it hits.  When the
package id is a key of the packages map and the file stem of the produced
path is a key of that package's binaries map, that entry's `src_path`
becomes the produced path (overwriting any prior value) and exactly the
symbol candidates with extension `"pdb"` are appended to its `sym_paths`;
in every other case the expectations state is returned unchanged. -/
theorem c7_found_bin :
    ∀ (st : Build.BuildExpectations) (pkg_id src : String) (syms : List String),
      (∀ stem bin, PathModel.fileStemOf src = some stem →
        Build.binLookup st pkg_id stem = some bin →
        Build.binLookup (Build.found_bin st pkg_id src syms) pkg_id stem =
          some { idx := bin.idx, src_path := some src,
                 sym_paths := bin.sym_paths ++ syms.filter Build.isPdb }) ∧
      ((PathModel.fileStemOf src = none ∨
          (∀ stem, PathModel.fileStemOf src = some stem →
            Build.binLookup st pkg_id stem = none)) →
        Build.found_bin st pkg_id src syms = st) := by
  intro st pkg_id src syms
  constructor
  · intro stem bin hstem hlook
    rcases hp : Build.lookupA st.packages pkg_id with _ | pkg0
    · simp [Build.binLookup, hp] at hlook
    · have hb : Build.lookupA pkg0.binaries stem = some bin := by
        simpa [Build.binLookup, hp] using hlook
      cases bin with
      | mk idx sp sy =>
        simp [Build.found_bin, hp, hstem, hb, Build.binLookup,
          Build.lookupA_updateFirst_self]
  · intro h
    rcases hp : Build.lookupA st.packages pkg_id with _ | pkg0
    · simp [Build.found_bin, hp]
    · rcases h with h | h
      · simp [Build.found_bin, hp, h]
      · rcases hstem : PathModel.fileStemOf src with _ | stem
        · simp [Build.found_bin, hp, hstem]
        · have hb : Build.lookupA pkg0.binaries stem = none := by
            have := h stem hstem
            simpa [Build.binLookup, hp] using this
          simp [Build.found_bin, hp, hstem, hb]

/-- Witness for C7: reconciling `package = "p"`, `src = /out/foo.exe`,
symbols `[/out/foo.pdb, /out/foo.txt]` against a state expecting
`p → foo` sets `src_path` to `/out/foo.exe` and keeps only
`/out/foo.pdb` as symbols. -/
theorem c7_witness :
    Build.binLookup
      (Build.found_bin Examples.st0 "p" "/out/foo.exe"
        ["/out/foo.pdb", "/out/foo.txt"]) "p" "foo" =
      some { idx := 0, src_path := some "/out/foo.exe",
             sym_paths := ["/out/foo.pdb"] } := by
  have h := (c7_found_bin Examples.st0 "p" "/out/foo.exe"
      ["/out/foo.pdb", "/out/foo.txt"]).1 "foo" ⟨0, none, []⟩ (by decide) (by decide)
  have hf : List.filter Build.isPdb ["/out/foo.pdb", "/out/foo.txt"] = ["/out/foo.pdb"] := by
    decide
  simpa [hf] using h

/-- Positional description of `gather_work`'s distributables: the entry at
position `j` is the distributable synthesized for the artifact at the same
position. -/
theorem gather_distrib_spec (ws : Lib.WorkspaceModel) (fe : String → Bool)
    (j : Nat) (d : Lib.DistributableTarget) :
    ((Lib.gather_work ws fe).distributables)[j]? = some d →
    ∃ exe, (Lib.gather_work ws fe).artifacts[j]? = some (.Executable exe) ∧
      d = Lib.mkDistributable ws fe (Lib.gather_work ws fe).targets
            (ws.target_dir ++ "/" ++ Lib.TARGET_DIST) j exe := by
  intro h
  simp only [Lib.gather_work, List.getElem?_map, List.getElem?_enum,
    Option.map_map] at h
  rcases Option.map_eq_some'.mp h with ⟨a, ha, hfa⟩
  cases a with
  | Executable exe =>
    refine ⟨exe, ?_, ?_⟩
    · simpa [Lib.gather_work] using ha
    · simp only [Function.comp] at hfa
      simp [Lib.gather_work]
      exact hfa.symm

/-- The graph has exactly one distributable per artifact. -/
theorem gather_lengths (ws : Lib.WorkspaceModel) (fe : String → Bool) :
    (Lib.gather_work ws fe).distributables.length =
      (Lib.gather_work ws fe).artifacts.length := by
  simp [Lib.gather_work, List.enum_length]

/-- The distributable synthesized for artifact `idx` requires exactly that
artifact. -/
theorem mkDistributable_required (ws : Lib.WorkspaceModel) (fe : String → Bool)
    (ts : List Lib.CargoBuildTarget) (dd : String) (idx : Nat)
    (exe : Lib.ExecutableBuildArtifact) :
    (Lib.mkDistributable ws fe ts dd idx exe).required_artifacts = [idx] := rfl

/-- Appending a distributable index to the release map adds exactly one
occurrence of that index to the flattened release contents. -/
theorem flat_pushDistrib_count (app ver : String) (dIdx c : Nat) :
    ∀ rs : List Lib.ReleaseTarget,
      List.count c ((Lib.pushDistrib app ver dIdx rs).flatMap
        (fun r => r.distributables)) =
      List.count c (rs.flatMap (fun r => r.distributables)) +
        (if dIdx = c then 1 else 0) := by
  intro rs
  induction rs with
  | nil => simp [Lib.pushDistrib, List.count_singleton, beq_iff_eq]
  | cons r rest ih =>
    by_cases h : r.app_name = app ∧ r.version = ver
    · simp [Lib.pushDistrib, h, List.count_append, List.count_cons,
        List.count_singleton, beq_iff_eq]
      omega
    · simp [Lib.pushDistrib, h, List.count_append, ih]
      omega

/-- The flattened contents of the release map built from an enumeration
hold each pushed index exactly as often as the enumeration does. -/
theorem buildReleases_count (ws : Lib.WorkspaceModel) (c : Nat) :
    ∀ (pairs : List (Nat × Lib.BuildArtifact)) (rs : List Lib.ReleaseTarget),
      List.count c ((Lib.buildReleases ws pairs rs).flatMap
        (fun r => r.distributables)) =
      List.count c (rs.flatMap (fun r => r.distributables)) +
        List.count c (pairs.map Prod.fst) := by
  intro pairs
  induction pairs with
  | nil => simp [Lib.buildReleases]
  | cons p rest ih =>
    rcases p with ⟨idx, a⟩
    cases a with
    | Executable exe =>
      intro rs
      simp only [Lib.buildReleases]
      rw [ih, flat_pushDistrib_count]
      simp [List.count_cons, beq_iff_eq]
      omega

/-- C5: `gather_work` produces exactly one build task — host target,
profile `"dist"`, whole-workspace scope, default features (defaults on,
no explicit list) — expecting every artifact; every artifact index
appears in exactly one distributable's `required_artifacts`; and every
distributable index appears exactly once across all releases. -/
theorem c5_gather_work :
    ∀ (ws : Lib.WorkspaceModel) (fe : String → Bool),
      ((Lib.gather_work ws fe).targets =
        [{ target_triple := ws.host_triple,
           features := { no_default_features := false, features := .List [] },
           package := .Workspace, profile := "dist",
           expected_artifacts :=
             List.range (Lib.gather_work ws fe).artifacts.length }]) ∧
      (∀ i, i < (Lib.gather_work ws fe).artifacts.length →
        ∃! j, Lib.appearsInDistrib (Lib.gather_work ws fe) i j) ∧
      (∀ j, j < (Lib.gather_work ws fe).distributables.length →
        List.count j ((Lib.gather_work ws fe).releases.flatMap
          (fun r => r.distributables)) = 1) := by
  intro ws fe
  refine ⟨rfl, ?_, ?_⟩
  · intro i hi
    refine ⟨i, ?_, ?_⟩
    · unfold Lib.appearsInDistrib
      have hlen : i < (Lib.gather_work ws fe).distributables.length := by
        rw [gather_lengths]; exact hi
      rcases hd : ((Lib.gather_work ws fe).distributables)[i]? with _ | d
      · rw [List.getElem?_eq_getElem hlen] at hd; exact absurd hd (by simp)
      · rcases gather_distrib_spec ws fe i d hd with ⟨exe, _, rfl⟩
        simp [hd, mkDistributable_required]
    · intro j hj
      unfold Lib.appearsInDistrib at hj
      rcases hd : ((Lib.gather_work ws fe).distributables)[j]? with _ | d
      · rw [hd] at hj; exact absurd hj (by simp)
      · rw [hd] at hj
        rcases gather_distrib_spec ws fe j d hd with ⟨exe, _, rfl⟩
        have h2 : i ∈ (Lib.mkDistributable ws fe (Lib.gather_work ws fe).targets
            (ws.target_dir ++ "/" ++ Lib.TARGET_DIST) j exe).required_artifacts := hj
        rw [mkDistributable_required] at h2
        exact (List.mem_singleton.mp h2).symm
  · intro j hj
    have hc : List.count j ((Lib.gather_work ws fe).releases.flatMap
        (fun r => r.distributables)) =
        List.count j (((Lib.gather_work ws fe).artifacts.enum).map Prod.fst) := by
      have h := buildReleases_count ws j
        ((Lib.gather_work ws fe).artifacts.enum) []
      simpa [Lib.gather_work] using h
    rw [hc, List.enum_map_fst]
    refine List.count_eq_one_of_mem (List.nodup_range _) ?_
    rw [List.mem_range]
    rw [gather_lengths] at hj
    exact hj

/-- Witness for C5 on the one-binary example workspace: its single
artifact index 0 is required by exactly one distributable, and
distributable index 0 appears exactly once across the releases. -/
theorem c5_witness :
    (0 < (Lib.gather_work Examples.ws0 Examples.fe0).artifacts.length ∧
      ∃! j, Lib.appearsInDistrib (Lib.gather_work Examples.ws0 Examples.fe0) 0 j) ∧
    (0 < (Lib.gather_work Examples.ws0 Examples.fe0).distributables.length ∧
      List.count 0 ((Lib.gather_work Examples.ws0 Examples.fe0).releases.flatMap
        (fun r => r.distributables)) = 1) :=
  ⟨⟨by decide, (c5_gather_work Examples.ws0 Examples.fe0).2.1 0 (by decide)⟩,
   ⟨by decide, (c5_gather_work Examples.ws0 Examples.fe0).2.2 0 (by decide)⟩⟩

/-- Every string ends with its own appended suffix. -/
theorem strEndsWith_append (a b : String) :
    PathModel.strEndsWith (a ++ b) b = true := by
  unfold PathModel.strEndsWith
  rw [List.isSuffixOf_iff_suffix, String.data_append]
  exact List.suffix_append _ _

/-- The bundle style picked in `gather_work` is `Zip` exactly when the
triple contains `"windows"`. -/
theorem bundleFor_eq_zip (t : String) :
    Lib.bundleFor t = .Zip ↔ PathModel.strContains t "windows" = true := by
  unfold Lib.bundleFor
  by_cases h : PathModel.strContains t "windows" <;> simp [h]

/-- The bundle style picked in `gather_work` is `Zip` or `Tar(Xzip)`. -/
theorem bundleFor_cases (t : String) :
    Lib.bundleFor t = .Zip ∨ Lib.bundleFor t = .Tar .Xzip := by
  unfold Lib.bundleFor
  by_cases h : PathModel.strContains t "windows" <;> simp [h]

/-- C6: every distributable synthesized by `gather_work` has bundle style
`Zip` iff its target triple contains the substring `"windows"` (and
`Tar(Xzip)` otherwise), and its archive file name ends in the extension of
its bundle style, with the extension table `zip` / `tar.gz` / `tar.xz` /
`tar.zstd` exactly as in the source. -/
theorem c6_bundle_and_extension :
    ∀ (ws : Lib.WorkspaceModel) (fe : String → Bool),
      ∀ d ∈ (Lib.gather_work ws fe).distributables,
        ((d.bundle = .Zip ↔ PathModel.strContains d.target_triple "windows" = true) ∧
         (d.bundle = .Zip ∨ d.bundle = .Tar .Xzip)) ∧
        PathModel.strEndsWith d.file_name (Lib.file_ext d.bundle) = true ∧
        (Lib.file_ext .Zip = "zip" ∧ Lib.file_ext (.Tar .Gzip) = "tar.gz" ∧
         Lib.file_ext (.Tar .Xzip) = "tar.xz" ∧
         Lib.file_ext (.Tar .Zstd) = "tar.zstd") := by
  intro ws fe d hd
  rw [List.mem_iff_getElem?] at hd
  obtain ⟨j, hj⟩ := hd
  rcases gather_distrib_spec ws fe j d hj with ⟨exe, _, rfl⟩
  refine ⟨⟨bundleFor_eq_zip _, bundleFor_cases _⟩, ?_, rfl, rfl, rfl, rfl⟩
  exact strEndsWith_append _ _

/-- Witness for C6 at the example workspace's only distributable (host is
not windows, so the bundle is `Tar(Xzip)` and the name ends in
`tar.xz`). -/
theorem c6_witness :
    ((Lib.gather_work Examples.ws0 Examples.fe0).distributables.getD 0 default).bundle
        = .Tar .Xzip ∧
    PathModel.strEndsWith
      ((Lib.gather_work Examples.ws0 Examples.fe0).distributables.getD 0
        default).file_name
      (Lib.file_ext
        ((Lib.gather_work Examples.ws0 Examples.fe0).distributables.getD 0
          default).bundle) = true := by
  have h := c6_bundle_and_extension Examples.ws0 Examples.fe0
    ((Lib.gather_work Examples.ws0 Examples.fe0).distributables.getD 0 default)
    (by decide)
  exact ⟨by decide, h.2.1⟩

/-- Counterexample to C1 as stated: on the one-binary linux-host example,
`do_dist`'s report tags its distributable `Zip` while the graph
distributable's bundle style is `Tar(Xzip)` — `kind` does not reflect the
bundle style, because the report assembly hardcodes
`DistributableKind::Zip` for every entry. -/
theorem c1_counterexample :
    Lib.ClaimC1 (Lib.gather_work Examples.ws0 Examples.fe0)
      (Lib.doDistReport (Lib.gather_work Examples.ws0 Examples.fe0)
        Examples.b0) = False := by
  refine eq_false ?_
  intro h
  have h1 := h 0 0
    ((Lib.gather_work Examples.ws0 Examples.fe0).releases.getD 0 ⟨"", "", []⟩) 0
    ((Lib.gather_work Examples.ws0 Examples.fe0).distributables.getD 0 default)
    ((Lib.doDistReport (Lib.gather_work Examples.ws0 Examples.fe0)
        Examples.b0).getD 0 default)
    (((Lib.doDistReport (Lib.gather_work Examples.ws0 Examples.fe0)
        Examples.b0).getD 0 default).distributables.getD 0 default)
    (by decide) (by decide) (by decide) (by decide) (by decide)
  have h2 := h1.1.mp (by decide)
  exact absurd h2 (by decide)

/-- C1 (amended): in the report returned by `do_dist`, every
distributable entry's `kind` tag is the literal `Zip`, whatever the
distributable's bundle style — `lib.rs` line 301 sets
`kind: cargo_dist_schema::DistributableKind::Zip` unconditionally. -/
theorem c1_kind_always_zip :
    ∀ (dist : Lib.DistGraph) (built : Nat → String),
      ∀ rel ∈ Lib.doDistReport dist built,
        ∀ de ∈ rel.distributables, de.kind = .Zip := by
  intro dist built rel hrel de hde
  simp only [Lib.doDistReport, List.mem_map] at hrel
  obtain ⟨r, _, rfl⟩ := hrel
  simp only [List.mem_map] at hde
  obtain ⟨i, _, rfl⟩ := hde
  rfl

/-- Witness for C1 at the example report's first distributable entry. -/
theorem c1_witness :
    (((Lib.doDistReport (Lib.gather_work Examples.ws0 Examples.fe0)
        Examples.b0).getD 0 default).distributables.getD 0 default).kind = .Zip :=
  c1_kind_always_zip (Lib.gather_work Examples.ws0 Examples.fe0) Examples.b0
    ((Lib.doDistReport (Lib.gather_work Examples.ws0 Examples.fe0)
        Examples.b0).getD 0 default) (by decide)
    (((Lib.doDistReport (Lib.gather_work Examples.ws0 Examples.fe0)
        Examples.b0).getD 0 default).distributables.getD 0 default) (by decide)

/-- Lookup after an insert-or-replace: the inserted key maps to the new
value, every other key is untouched. -/
theorem lookupA_insertA {V : Type} (k k2 : String) (v : V) :
    ∀ l : List (String × V),
      Build.lookupA (Build.insertA k v l) k2 =
        if k2 = k then some v else Build.lookupA l k2 := by
  intro l
  induction l with
  | nil =>
    by_cases h : k2 = k
    · subst h; simp [Build.insertA, Build.lookupA_cons]
    · have hne : ¬k = k2 := fun hh => h hh.symm
      simp [Build.insertA, Build.lookupA_cons, h, hne, Build.lookupA]
  | cons p rest ih =>
    by_cases hk : p.1 = k
    · by_cases h2 : k2 = k
      · subst h2
        simp [Build.insertA, hk, Build.lookupA_cons]
      · have hne : ¬k = k2 := fun hh => h2 hh.symm
        have hpne : ¬p.1 = k2 := fun hh => h2 (hk ▸ hh).symm
        simp [Build.insertA, hk, Build.lookupA_cons, hne, hpne, h2]
    · by_cases h2 : k2 = k
      · subst h2
        have hpne : ¬p.1 = k2 := hk
        simp [Build.insertA, hk, Build.lookupA_cons, hpne, ih]
      · by_cases hp2 : p.1 = k2
        · simp [Build.insertA, hk, Build.lookupA_cons, hp2, h2]
        · simp [Build.insertA, hk, Build.lookupA_cons, hp2, h2, ih]

/-- The missing list accumulated by the `process_bins` loop: the prior
accumulator followed by the names of the missing entries, in iteration
order. -/
theorem processLoop_missing (st : Build.BuildExpectations)
    (dist : Build.DistGraph) (env : Build.Env) :
    ∀ (entries : List (String × String × Build.ExpectedBinary))
      (acc : Build.ProcessState),
      (Build.processLoop st dist env entries acc).missing =
        acc.missing ++ (entries.filter
          (fun e => Build.entryMissing env e.2.2)).map (fun e => (e.1, e.2.1)) := by
  intro entries
  induction entries with
  | nil => intro acc; simp [Build.processLoop]
  | cons e rest ih =>
    intro acc
    rcases e with ⟨pid, bn, rb⟩
    rcases hsp : rb.src_path with _ | sp
    · simp [Build.processLoop, hsp, ih, Build.entryMissing, List.filter_cons]
    · by_cases hex : env.path_exists sp
      · simp [Build.processLoop, hsp, hex, ih, Build.entryMissing, List.filter_cons]
      · simp [Build.processLoop, hsp, hex, ih, Build.entryMissing, List.filter_cons]

/-- The copies accumulated by the `process_bins` loop: the prior
accumulator followed by each located entry's copy plan, in iteration
order. -/
theorem processLoop_copies (st : Build.BuildExpectations)
    (dist : Build.DistGraph) (env : Build.Env) :
    ∀ (entries : List (String × String × Build.ExpectedBinary))
      (acc : Build.ProcessState),
      (Build.processLoop st dist env entries acc).copies =
        acc.copies ++ entries.flatMap (Build.entryCopies env dist) := by
  intro entries
  induction entries with
  | nil => intro acc; simp [Build.processLoop]
  | cons e rest ih =>
    intro acc
    rcases e with ⟨pid, bn, rb⟩
    rcases hsp : rb.src_path with _ | sp
    · simp [Build.processLoop, hsp, ih, Build.entryCopies, List.flatMap_cons]
    · by_cases hex : env.path_exists sp
      · simp [Build.processLoop, hsp, hex, ih, Build.entryCopies, List.flatMap_cons]
      · simp [Build.processLoop, hsp, hex, ih, Build.entryCopies, List.flatMap_cons]

/-- The `process_bins` loop never removes a manifest asset. -/
theorem processLoop_assets_mono (st : Build.BuildExpectations)
    (dist : Build.DistGraph) (env : Build.Env) (k : String) :
    ∀ (entries : List (String × String × Build.ExpectedBinary))
      (acc : Build.ProcessState),
      (Build.lookupA acc.manifest.assets k).isSome = true →
      (Build.lookupA (Build.processLoop st dist env entries acc).manifest.assets
        k).isSome = true := by
  intro entries
  induction entries with
  | nil => intro acc h; simpa [Build.processLoop] using h
  | cons e rest ih =>
    intro acc h
    rcases e with ⟨pid, bn, rb⟩
    rcases hsp : rb.src_path with _ | sp
    · simp [Build.processLoop, hsp]
      exact ih _ h
    · by_cases hex : env.path_exists sp
      · simp [Build.processLoop, hsp, hex]
        refine ih _ ?_
        rw [lookupA_insertA]
        by_cases hk : k = (dist.binary rb.idx).id <;> simp [hk, h]
      · simp [Build.processLoop, hsp, hex]
        exact ih _ h

/-- When no entry is missing, the `process_bins` loop leaves an asset in
the manifest for every entry's binary id. -/
theorem processLoop_assets_complete (st : Build.BuildExpectations)
    (dist : Build.DistGraph) (env : Build.Env) :
    ∀ (entries : List (String × String × Build.ExpectedBinary))
      (acc : Build.ProcessState),
      (∀ e ∈ entries, Build.entryMissing env e.2.2 = false) →
      ∀ e ∈ entries,
        (Build.lookupA (Build.processLoop st dist env entries acc).manifest.assets
          ((dist.binary e.2.2.idx).id)).isSome = true := by
  intro entries
  induction entries with
  | nil => intro acc _ e he; exact absurd he (List.not_mem_nil e)
  | cons e0 rest ih =>
    intro acc hall e he
    rcases e0 with ⟨pid, bn, rb⟩
    have hm0 : Build.entryMissing env rb = false := hall _ (List.mem_cons_self _ _)
    rcases hsp : rb.src_path with _ | sp
    · rw [Build.entryMissing, hsp] at hm0
      exact absurd hm0 (by simp)
    · have hex : env.path_exists sp = true := by
        rw [Build.entryMissing, hsp] at hm0
        simpa using hm0
      rcases List.mem_cons.mp he with rfl | hrest
      · simp only [Build.processLoop, hsp, hex, if_pos rfl]
        refine processLoop_assets_mono st dist env _ rest _ ?_
        simp [lookupA_insertA]
      · simp only [Build.processLoop, hsp, hex, if_pos rfl]
        exact ih _ (fun x hx => hall x (List.mem_cons_of_mem _ hx)) e hrest

/-- C8: `process_bins` reports a missing-binary error exactly when some
expected entry has no `src_path` or a non-existent one, and the error
names the first such entry in iteration order
(`(Build.process_bins ...).2.2 = firstMissingSpec ...`, so the result is
success precisely when no entry is missing); the copies performed are each
located entry's copy plan in iteration order; and on success the manifest
holds an asset record for every expected binary's id. -/
theorem c8_process_bins :
    ∀ (st : Build.BuildExpectations) (dist : Build.DistGraph) (env : Build.Env)
      (manifest : Build.DistManifest),
      ((Build.process_bins st dist env manifest).2.2 =
        Build.firstMissingSpec st env) ∧
      ((Build.process_bins st dist env manifest).2.1 =
        (Build.allEntries st).flatMap (Build.entryCopies env dist)) ∧
      (Build.firstMissingSpec st env = none →
        ∀ e ∈ Build.allEntries st,
          (Build.lookupA (Build.process_bins st dist env manifest).1.assets
            ((dist.binary e.2.2.idx).id)).isSome = true) := by
  intro st dist env manifest
  refine ⟨?_, ?_, ?_⟩
  · show ((Build.processLoop st dist env (Build.allEntries st)
        ⟨manifest, [], []⟩).missing.head?).map _ = _
    rw [processLoop_missing, Build.firstMissingSpec]
    simp only [List.nil_append]
    rw [List.head?_map, List.filter_head?, Option.map_map]
    rfl
  · show (Build.processLoop st dist env (Build.allEntries st)
        ⟨manifest, [], []⟩).copies = _
    rw [processLoop_copies]
    simp
  · intro hnone e he
    have hall : ∀ x ∈ Build.allEntries st, Build.entryMissing env x.2.2 = false := by
      rw [Build.firstMissingSpec] at hnone
      have h2 : (Build.allEntries st).find?
          (fun x => Build.entryMissing env x.2.2) = none := by
        rcases hf : (Build.allEntries st).find?
            (fun x => Build.entryMissing env x.2.2) with _ | x
        · exact hf
        · rw [hf] at hnone; exact absurd hnone (by simp)
      intro x hx
      have := List.find?_eq_none.mp h2 x hx
      simpa using this
    exact processLoop_assets_complete st dist env (Build.allEntries st)
      ⟨manifest, [], []⟩ hall e he

/-- Witness for C8 on the located example state: no error is reported, the
binary is copied to its declared destination, and an asset record for its
id lands in the manifest. -/
theorem c8_witness :
    (Build.process_bins Examples.stLoc Examples.dist0 Examples.env0 ⟨[]⟩).2.2 =
      none ∧
    (Build.process_bins Examples.stLoc Examples.dist0 Examples.env0 ⟨[]⟩).2.1 =
      [("/out/foo", "/dist/a/foo")] ∧
    (Build.lookupA
      (Build.process_bins Examples.stLoc Examples.dist0 Examples.env0 ⟨[]⟩).1.assets
      "bin-id-0").isSome = true := by
  refine ⟨?_, ?_, ?_⟩
  · rw [(c8_process_bins Examples.stLoc Examples.dist0 Examples.env0 ⟨[]⟩).1]
    rfl
  · rw [(c8_process_bins Examples.stLoc Examples.dist0 Examples.env0 ⟨[]⟩).2.1]
    rfl
  · have h := (c8_process_bins Examples.stLoc Examples.dist0 Examples.env0
      ⟨[]⟩).2.2 (by rfl) ("p", "foo", ⟨0, some "/out/foo", []⟩) (by decide)
    simpa using h
